import Mathlib

/-!
# Verification of the GPnet graph Gaussian-process engine

Shallow embedding of the GPnet repository (`benchtest.py` and
`scripts/GPnetold.py`): the graph-aware covariance kernels, the
Cholesky-based regression engine, the node partitioner and the
Newton-Raphson classifier loop, together with theorems settling the
specification claims.

Real-valued numerical code is embedded over `ℝ`; external numerical
primitives that the source consumes from numpy/scipy (Cholesky
factorisation, the seeded `random` sampler, `scipy.special.erf`) are
taken as explicit function parameters, exactly as the specification
declares them out of scope.  Matrices produced by the pandas/numpy
slicing pipeline are embedded as total functions `ℕ → ℕ → ℝ` whose
meaningful entries are the indices below the lengths of the requested
node lists, mirroring a `d1 × d2` ndarray.
-/

open scoped BigOperators
open scoped Matrix
open scoped Classical

namespace GPnet

/-! ## Kernel engine (benchtest.py, `GPnetRegressor.net_kernel`)

`net_kernel` builds the full distance DataFrame indexed by
`nodelist = list(self.Graph.nodes)` and then drops rows/columns:
`cols_to_drop = nodes_to_drop ∪ (B \ A)` is dropped from the *rows*
(`self.dist.drop(cols_to_drop)`), and `rows_to_drop = nodes_to_drop ∪ (A \ B)`
from the *columns* (`.drop(rows_to_drop, 1)`), where `nodes_to_drop`
are the nodes outside `A ∪ B`. -/

/-- Row labels of the sliced distance matrix `p` in `net_kernel`:
the node list with `cols_to_drop = (nodelist \ (A ∪ B)) ∪ (B \ A)` removed. -/
def keptRows (nodelist A B : List ℕ) : List ℕ :=
  nodelist.filter (fun x => decide (¬ ((x ∉ A ∧ x ∉ B) ∨ (x ∈ B ∧ x ∉ A))))

/-- Column labels of the sliced distance matrix `p` in `net_kernel`:
the node list with `rows_to_drop = (nodelist \ (A ∪ B)) ∪ (A \ B)` removed. -/
def keptCols (nodelist A B : List ℕ) : List ℕ :=
  nodelist.filter (fun x => decide (¬ ((x ∉ A ∧ x ∉ B) ∨ (x ∈ A ∧ x ∉ B))))

/-- Entry `(i, j)` of the matrix returned by
`GPnetRegressor.net_kernel(nodes_a, nodes_b, theta, measnoise, wantderiv=False)`:
`distances = theta[1] * p.values ** 2`,
`k = 2 + theta[0] * np.exp(-0.5 * distances)`, and the returned value is
`k + measnoise * theta[2] * np.eye(d1, d2)`.  `dist` is the shortest-path
distance matrix of the graph. -/
noncomputable def net_kernel_entry (dist : ℕ → ℕ → ℝ) (nodelist A B : List ℕ)
    (θ : Fin 3 → ℝ) (measnoise : ℝ) (i j : ℕ) : ℝ :=
  2 + θ 0 * Real.exp (-(1/2) *
      (θ 1 * (dist ((keptRows nodelist A B).getD i 0) ((keptCols nodelist A B).getD j 0)) ^ 2))
    + measnoise * θ 2 * (if i = j then 1 else 0)

/-- Modelled from the spec's words for claim C1 (refinement comparison only):
`k(i,j) = constant_offset + scale · exp(−0.5 · (dist(i,j)/length_scale)²)`
with `theta = [constant_scale, length_scale, noise]` and diagonal noise
`measurement_noise · θ_noise · I`. -/
noncomputable def specRBF_entry (dist : ℕ → ℕ → ℝ) (A B : List ℕ)
    (θ : Fin 3 → ℝ) (measnoise : ℝ) (i j : ℕ) : ℝ :=
  2 + θ 0 * Real.exp (-(1/2) * ((dist (A.getD i 0) (B.getD j 0)) / θ 1) ^ 2)
    + measnoise * θ 2 * (if i = j then 1 else 0)

/-- A duplicate-free node list filtered to the members of one of its
sublists gives back exactly that sublist. -/
theorem filter_mem_of_sublist {A nodelist : List ℕ} (hnd : nodelist.Nodup)
    (hA : List.Sublist A nodelist) :
    nodelist.filter (fun x => decide (x ∈ A)) = A := by
  induction hA with
  | slnil => rfl
  | cons a h ih =>
      rename_i l₁ l₂
      have hna : a ∉ l₁ := fun hmem => (List.nodup_cons.mp hnd).1 (h.subset hmem)
      have := ih (List.nodup_cons.mp hnd).2
      simpa [List.filter_cons, hna] using this
  | cons₂ a h ih =>
      rename_i l₁ l₂
      have hna : a ∉ l₂ := (List.nodup_cons.mp hnd).1
      have hrec := ih (List.nodup_cons.mp hnd).2
      have hcong : l₂.filter (fun x => decide (x ∈ a :: l₁)) =
          l₂.filter (fun x => decide (x ∈ l₁)) := by
        refine List.filter_congr ?_
        intro x hx
        have hxa : x ≠ a := fun hxa => hna (hxa ▸ hx)
        apply decide_eq_decide.mpr
        simp [List.mem_cons, hxa]
      rw [List.filter_cons_of_pos (by simp), hcong, hrec]

/-- The row labels kept by `net_kernel`'s drop pipeline are exactly `A`
when the node lists are duplicate-free sublists of the graph's node list. -/
theorem keptRows_eq {nodelist A B : List ℕ} (hnd : nodelist.Nodup)
    (hA : List.Sublist A nodelist) :
    keptRows nodelist A B = A := by
  have hcong : keptRows nodelist A B = nodelist.filter (fun x => decide (x ∈ A)) := by
    refine List.filter_congr ?_
    intro x _
    apply decide_eq_decide.mpr
    by_cases hxA : x ∈ A <;> by_cases hxB : x ∈ B <;> simp [hxA, hxB]
  rw [hcong, filter_mem_of_sublist hnd hA]

/-- The column labels kept by `net_kernel`'s drop pipeline are exactly `B`
when the node lists are duplicate-free sublists of the graph's node list. -/
theorem keptCols_eq {nodelist A B : List ℕ} (hnd : nodelist.Nodup)
    (hB : List.Sublist B nodelist) :
    keptCols nodelist A B = B := by
  have hcong : keptCols nodelist A B = nodelist.filter (fun x => decide (x ∈ B)) := by
    refine List.filter_congr ?_
    intro x _
    apply decide_eq_decide.mpr
    by_cases hxA : x ∈ A <;> by_cases hxB : x ∈ B <;> simp [hxA, hxB]
  rw [hcong, filter_mem_of_sublist hnd hB]

/-- C1 (amended): for duplicate-free node lists `A`, `B` that are sublists of
the graph node list, entry `(i,j)` of the RBF kernel returned by `net_kernel`
with `wantderiv=False` is
`2 + θ₀ · exp(−0.5 · θ₁ · dist(A i, B j)²)` — the hyperparameter `θ₁`
multiplies the squared graph distance (an inverse-squared length scale), it
does not divide the distance — plus the diagonal noise term
`measnoise · θ₂ · I`, which the callers disable (via `measnoise`) for the
cross train/test block. -/
theorem C1_net_kernel_rbf (dist : ℕ → ℕ → ℝ) {nodelist A B : List ℕ}
    (θ : Fin 3 → ℝ) (measnoise : ℝ) (hnd : nodelist.Nodup)
    (hA : List.Sublist A nodelist) (hB : List.Sublist B nodelist) (i j : ℕ) :
    net_kernel_entry dist nodelist A B θ measnoise i j =
      2 + θ 0 * Real.exp (-(1/2) * (θ 1 * (dist (A.getD i 0) (B.getD j 0)) ^ 2))
        + measnoise * θ 2 * (if i = j then 1 else 0) := by
  unfold net_kernel_entry
  rw [keptRows_eq hnd hA, keptCols_eq hnd hB]

/-- Witness for C1: the hypotheses of `C1_net_kernel_rbf` hold and its
conclusion evaluates on the 2-node graph with node list `[0, 1]`,
`A = [0, 1]`, `B = [1]`, `θ = (1, 4, 0)`. -/
theorem C1_net_kernel_rbf_witness :
    ([0, 1] : List ℕ).Nodup ∧
    net_kernel_entry (fun a b => if a = b then (0:ℝ) else 1) [0, 1] [0, 1] [1]
        ![1, 4, 0] 1 0 0 =
      2 + 1 * Real.exp (-(1/2) * (4 * (1:ℝ) ^ 2)) + 1 * 0 * 1 :=
  ⟨by decide, by
    have h := C1_net_kernel_rbf (fun a b => if a = b then (0:ℝ) else 1)
      (A := [0, 1]) (B := [1]) ![1, 4, 0] 1 (by decide)
      (List.Sublist.refl [0, 1]) (List.Sublist.cons 0 (List.Sublist.refl [1])) 0 0
    simpa using h⟩

/-- Counterexample to C1 as stated: with `θ = (1, 4, 0)` and graph distance
`dist(0,1) = 1`, the code's kernel entry `2 + exp(−0.5 · θ₁ · dist²)
= 2 + exp(−2)` differs from the claimed
`2 + exp(−0.5 · (dist/θ₁)²) = 2 + exp(−1/32)`: `theta[1]` is not a length
scale dividing the distance. -/
theorem C1_counterexample :
    net_kernel_entry (fun a b => if a = b then (0:ℝ) else 1) [0, 1] [0, 1] [1]
        ![1, 4, 0] 1 0 0 ≠
      specRBF_entry (fun a b => if a = b then (0:ℝ) else 1) [0, 1] [1]
        ![1, 4, 0] 1 0 0 := by
  have hL : net_kernel_entry (fun a b => if a = b then (0:ℝ) else 1) [0, 1] [0, 1] [1]
      ![1, 4, 0] 1 0 0 = 2 + Real.exp (-2) := by
    unfold net_kernel_entry
    norm_num [keptRows, keptCols, List.filter]
  have hR : specRBF_entry (fun a b => if a = b then (0:ℝ) else 1) [0, 1] [1]
      ![1, 4, 0] 1 0 0 = 2 + Real.exp (-(1/32)) := by
    unfold specRBF_entry
    norm_num
  rw [hL, hR]
  have hlt : Real.exp (-2) < Real.exp (-(1/32)) :=
    Real.exp_lt_exp.mpr (by norm_num)
  intro hcontra
  exact absurd (add_left_cancel hcontra) (ne_of_lt hlt)

/-! ## Regression log marginal likelihood (benchtest.py, `net_logPosterior`) -/

/-- The covariance matrix `self.net_kernel(data, data, theta, wantderiv=False)`
viewed as a square matrix over the training indices (`measnoise` defaults
to `1.`). -/
noncomputable def kernelMat (dist : ℕ → ℕ → ℝ) (nodelist data : List ℕ)
    (θ : Fin 3 → ℝ) : Matrix (Fin data.length) (Fin data.length) ℝ :=
  Matrix.of fun i j => net_kernel_entry dist nodelist data data θ 1 i j

/-- `GPnetRegressor.net_logPosterior(theta, data, t)`:
builds `k = net_kernel(data, data, theta, wantderiv=False)`, returns `+999`
when the eigenvalue positive-definiteness check fails, otherwise lets
`L = cholesky(k)`, `beta = solve(L.T, solve(L, t))` and returns
`-logp` for `logp = -0.5·tᵀβ − Σ log(diag L) − (n/2)·log(2π)`.
The numerical library's Cholesky factorisation is the parameter `chol`. -/
noncomputable def net_logPosterior (dist : ℕ → ℕ → ℝ) (nodelist data : List ℕ)
    (chol : Matrix (Fin data.length) (Fin data.length) ℝ →
      Matrix (Fin data.length) (Fin data.length) ℝ)
    (θ : Fin 3 → ℝ) (t : Fin data.length → ℝ) : ℝ :=
  let k := kernelMat dist nodelist data θ
  if k.PosDef then
    let L := chol k
    let beta := (L.transpose)⁻¹ *ᵥ (L⁻¹ *ᵥ t)
    let logp := -(1/2) * (t ⬝ᵥ beta) - (∑ i, Real.log (L i i))
      - (data.length : ℝ) / 2 * Real.log (2 * Real.pi);
    -logp
  else 999

/-- C2 (confirmed): whenever the training covariance matrix passes the
positive-definiteness gate (equivalently, admits a Cholesky factor
`L = chol k`), `net_logPosterior` returns the *negation* of
`−0.5·tᵀα − Σ log(diag L) − (n/2)·log(2π)` with `α = L⁻ᵀ(L⁻¹ t)`:
the engine returns the negative log marginal likelihood, to be minimized. -/
theorem C2_net_logPosterior (dist : ℕ → ℕ → ℝ) (nodelist data : List ℕ)
    (chol : Matrix (Fin data.length) (Fin data.length) ℝ →
      Matrix (Fin data.length) (Fin data.length) ℝ)
    (θ : Fin 3 → ℝ) (t : Fin data.length → ℝ)
    (hpos : (kernelMat dist nodelist data θ).PosDef) :
    net_logPosterior dist nodelist data chol θ t =
      -(-(1/2) * (t ⬝ᵥ ((chol (kernelMat dist nodelist data θ)).transpose⁻¹ *ᵥ
          ((chol (kernelMat dist nodelist data θ))⁻¹ *ᵥ t)))
        - (∑ i, Real.log ((chol (kernelMat dist nodelist data θ)) i i))
        - (data.length : ℝ) / 2 * Real.log (2 * Real.pi)) := by
  unfold net_logPosterior
  simp only [if_pos hpos]

/-- The kernel matrix on the single-node graph `[0]` with zero distances and
`θ = (1, 1, 1)` is the 1×1 matrix `[4]`, hence positive definite. -/
theorem kernelMat_single_posDef :
    (kernelMat (fun _ _ => (0:ℝ)) [0] [0] ![1, 1, 1]).PosDef := by
  have h : kernelMat (fun _ _ => (0:ℝ)) [0] [0] ![1, 1, 1] =
      Matrix.diagonal (fun _ => (4:ℝ)) := by
    ext i j
    fin_cases i
    fin_cases j
    simp [kernelMat, net_kernel_entry, keptRows, keptCols, Matrix.diagonal]
    norm_num [Real.exp_zero]
  rw [h]
  exact Matrix.PosDef.diagonal (fun _ => by norm_num)

/-- Witness for C2: the positive-definiteness hypothesis holds on the
single-node instance and `net_logPosterior` there equals the stated
negated log marginal likelihood. -/
theorem C2_net_logPosterior_witness :
    (kernelMat (fun _ _ => (0:ℝ)) [0] [0] ![1, 1, 1]).PosDef ∧
    net_logPosterior (fun _ _ => (0:ℝ)) [0] [0] (fun _ => 1) ![1, 1, 1] (fun _ => 0) =
      -(-(1/2) * ((fun _ => (0:ℝ)) ⬝ᵥ (((fun _ => (1 : Matrix (Fin ([0]:List ℕ).length)
            (Fin ([0]:List ℕ).length) ℝ)) (kernelMat (fun _ _ => (0:ℝ)) [0] [0] ![1, 1, 1])).transpose⁻¹ *ᵥ
          (((fun _ => (1 : Matrix (Fin ([0]:List ℕ).length) (Fin ([0]:List ℕ).length) ℝ))
            (kernelMat (fun _ _ => (0:ℝ)) [0] [0] ![1, 1, 1]))⁻¹ *ᵥ (fun _ => 0))))
        - (∑ i, Real.log (((fun _ => (1 : Matrix (Fin ([0]:List ℕ).length)
            (Fin ([0]:List ℕ).length) ℝ)) (kernelMat (fun _ _ => (0:ℝ)) [0] [0] ![1, 1, 1])) i i))
        - (([0]:List ℕ).length : ℝ) / 2 * Real.log (2 * Real.pi)) :=
  ⟨kernelMat_single_posDef,
    C2_net_logPosterior (fun _ _ => (0:ℝ)) [0] [0] (fun _ => 1) ![1, 1, 1] (fun _ => 0)
      kernelMat_single_posDef⟩

/-! ## Diffusion kernel (GPnetold.py, `GPnet.kernel`)

`GPnet.kernel` exponentiates `theta`, asserts `exp(theta[0]) < 1`, computes
`K = expm(exp(theta[0]) · NormalizedLaplacian)`, deletes the rows indexed by
`cols_to_drop` and the columns indexed by `rows_to_drop` (the same label sets
as `net_kernel`, mapped to positions in the node list), and adds
`measnoise * exp(theta[1])` to *every* entry.  The normalized Laplacian is
consumed from the graph collaborator, here the parameter `Lnorm`. -/

/-- Entry `(p, q)` of the matrix exponential `expm(lam · Lnorm)`, with
positions indexing the full node list (0 outside the matrix). -/
noncomputable def expmEntry (nodelist : List ℕ)
    (Lnorm : Matrix (Fin nodelist.length) (Fin nodelist.length) ℝ)
    (lam : ℝ) (p q : ℕ) : ℝ :=
  if h : p < nodelist.length ∧ q < nodelist.length then
    NormedSpace.exp ℝ (lam • Lnorm) ⟨p, h.1⟩ ⟨q, h.2⟩
  else 0

/-- `GPnet.kernel(nodes_a, nodes_b, theta, measnoise, wantderiv)` of
GPnetold.py.  The assertion `theta[0] < 1` (after exponentiation) is the
error exit; on success the result is the sliced matrix exponential plus the
uniform noise `measnoise * exp(theta[1])`.  The `wantderiv` flag is accepted
but — unlike what the method's own docstring promises — never consulted:
the body returns the 2-d matrix `k` on every path. -/
noncomputable def gpnet_kernel (nodelist : List ℕ)
    (Lnorm : Matrix (Fin nodelist.length) (Fin nodelist.length) ℝ)
    (A B : List ℕ) (θ : Fin 2 → ℝ) (measnoise : ℝ) (wantderiv : Bool) :
    Except String (ℕ → ℕ → ℝ) :=
  if Real.exp (θ 0) < 1 then
    Except.ok (fun i j =>
      expmEntry nodelist Lnorm (Real.exp (θ 0))
          (nodelist.indexOf ((keptRows nodelist A B).getD i 0))
          (nodelist.indexOf ((keptCols nodelist A B).getD j 0))
        + measnoise * Real.exp (θ 1))
  else Except.error "Lambda must be < 1"

/-- C5 (confirmed): the diffusion kernel fails with the invalid-parameter
error exactly when the diffusion rate `λ = exp(θ₀)` violates `λ < 1`, and
otherwise returns `expm(λ · NormalizedLaplacian)` sliced to the requested
node subsets (rows indexed by `A`, columns by `B`) plus the uniform noise
`measnoise · exp(θ₁)` added to every entry. -/
theorem C5_gpnet_kernel (nodelist : List ℕ)
    (Lnorm : Matrix (Fin nodelist.length) (Fin nodelist.length) ℝ)
    (A B : List ℕ) (θ : Fin 2 → ℝ) (measnoise : ℝ) (wantderiv : Bool) :
    (gpnet_kernel nodelist Lnorm A B θ measnoise wantderiv =
        Except.error "Lambda must be < 1" ↔ ¬ Real.exp (θ 0) < 1)
    ∧ (nodelist.Nodup → List.Sublist A nodelist → List.Sublist B nodelist →
        Real.exp (θ 0) < 1 →
        ∃ k, gpnet_kernel nodelist Lnorm A B θ measnoise wantderiv = Except.ok k ∧
          ∀ i j, k i j =
            expmEntry nodelist Lnorm (Real.exp (θ 0))
                (nodelist.indexOf (A.getD i 0)) (nodelist.indexOf (B.getD j 0))
              + measnoise * Real.exp (θ 1)) := by
  constructor
  · constructor
    · intro herr hlt
      unfold gpnet_kernel at herr
      rw [if_pos hlt] at herr
      exact Except.noConfusion herr
    · intro hge
      unfold gpnet_kernel
      rw [if_neg hge]
  · intro hnd hA hB hlt
    refine ⟨_, by unfold gpnet_kernel; rw [if_pos hlt], ?_⟩
    intro i j
    rw [keptRows_eq hnd hA, keptCols_eq hnd hB]

/-- Witness for C5: on the one-node graph with `Lnorm = 0`, `θ = (-1, 0)`,
the precondition `exp(−1) < 1` holds and the kernel succeeds with the
stated entries. -/
theorem C5_gpnet_kernel_witness :
    Real.exp ((![(-1 : ℝ), 0]) 0) < 1 ∧
    (∃ k, gpnet_kernel [0] 0 [0] [0] ![(-1 : ℝ), 0] 1 false = Except.ok k ∧
      ∀ i j, k i j =
        expmEntry [0] 0 (Real.exp ((![(-1 : ℝ), 0]) 0))
            (([0] : List ℕ).indexOf (([0] : List ℕ).getD i 0))
            (([0] : List ℕ).indexOf (([0] : List ℕ).getD j 0))
          + 1 * Real.exp ((![(-1 : ℝ), 0]) 1)) := by
  have hlt : Real.exp ((![(-1 : ℝ), 0]) 0) < 1 := by
    have : ((![(-1 : ℝ), 0]) 0) = (-1 : ℝ) := rfl
    rw [this]
    exact Real.exp_lt_one_iff.mpr (by norm_num)
  exact ⟨hlt, (C5_gpnet_kernel [0] 0 [0] [0] ![(-1 : ℝ), 0] 1 false).2
    (by decide) (List.Sublist.refl [0]) (List.Sublist.refl [0]) hlt⟩

/-! ## Derivative mode (benchtest.py `net_kernel` with `wantderiv=True`) -/

/-- Slice `s` of the `(d1, d2, len(theta)+1)` array returned by
`net_kernel(..., wantderiv=True)`:
`K[:,:,0] = k + measnoise·θ₂·I`, `K[:,:,1] = k`,
`K[:,:,2] = −0.5·k·distances`, `K[:,:,3] = θ₂·I`
(the array is allocated with `np.zeros`, so any higher slice is 0). -/
noncomputable def net_kernel_deriv (dist : ℕ → ℕ → ℝ) (nodelist A B : List ℕ)
    (θ : Fin 3 → ℝ) (measnoise : ℝ) (i j s : ℕ) : ℝ :=
  let d2 := θ 1 * (dist ((keptRows nodelist A B).getD i 0)
    ((keptCols nodelist A B).getD j 0)) ^ 2
  let k := 2 + θ 0 * Real.exp (-(1/2) * d2)
  let eye : ℝ := if i = j then 1 else 0
  if s = 0 then k + measnoise * θ 2 * eye
  else if s = 1 then k
  else if s = 2 then -(1/2) * k * d2
  else if s = 3 then θ 2 * eye
  else 0

/-- C4 (code bug): the claim — slice `d` of the derivative-mode kernel is the
analytic partial derivative `∂K/∂θ_{d−1}` for both kernel families — is what
both the method docstrings and the spec promise, but the code breaks it:
(1) at the single-node instance with `θ = (1,1,1)`, slice 1 of `net_kernel`
is the full covariance value `3` (the `2 +` offset and the `θ₀` factor
included), while the actual partial derivative of the covariance entry with
respect to `θ₀` is `exp(−0.5·θ₁·d²) = 1`;
(2) `GPnet.kernel` of GPnetold.py ignores `wantderiv` altogether — its result
is the same 2-d matrix for `wantderiv=True` as for `wantderiv=False`. -/
theorem C4_wantderiv_bug :
    (net_kernel_deriv (fun a b => if a = b then (0:ℝ) else 1) [0] [0] [0]
        ![1, 1, 1] 1 0 0 1 = 3 ∧
      deriv (fun x : ℝ => net_kernel_deriv (fun a b => if a = b then (0:ℝ) else 1)
        [0] [0] [0] ![x, 1, 1] 1 0 0 0) 1 = 1)
    ∧ ∀ (nodelist : List ℕ)
        (Lnorm : Matrix (Fin nodelist.length) (Fin nodelist.length) ℝ)
        (A B : List ℕ) (θ : Fin 2 → ℝ) (measnoise : ℝ) (w w' : Bool),
        gpnet_kernel nodelist Lnorm A B θ measnoise w =
          gpnet_kernel nodelist Lnorm A B θ measnoise w' := by
  refine ⟨⟨?_, ?_⟩, ?_⟩
  · unfold net_kernel_deriv
    norm_num [keptRows, keptCols, List.filter, Real.exp_zero]
  · have hfun : (fun x : ℝ => net_kernel_deriv (fun a b => if a = b then (0:ℝ) else 1)
        [0] [0] [0] ![x, 1, 1] 1 0 0 0) = fun x : ℝ => 2 + x + 1 := by
      funext x
      unfold net_kernel_deriv
      norm_num [keptRows, keptCols, List.filter, Real.exp_zero]
    rw [hfun]
    exact (((hasDerivAt_id (1:ℝ)).const_add 2).add_const 1).deriv
  · intro nodelist Lnorm A B θ measnoise w w'
    rfl

/-! ## Regression predict (GPnetold.py `GPnetRegressor.predict`,
benchtest.py `GPnetRegressor.train_model`)

The mutable attributes the method touches are modelled as a state record;
attributes never yet assigned are `none`.  The kernel method (`self.kernel`,
resp. `self.net_kernel`) and the Cholesky factorisation are parameters.
Raising an exception is modelled by `Except.error`; `predict` itself raises
nothing — on a failed positive-definiteness check it sets the corresponding
flag and returns `self` early. The run is modelled with the optimizer
disabled (`optimize=False`, the default), for which `optimize_params` is a
no-op. -/

/-- The regressor's mutable state: trained flag, the two
not-positive-definite flags, and the numeric attributes assigned by
`predict` (`none` = attribute not yet assigned). -/
structure RegState (ntr nte : ℕ) where
  is_trained : Bool
  k_not_posdef_flag : Bool
  kstar_not_posdef_flag : Bool
  t_mean : Option ℝ
  t_shifted : Option (Fin ntr → ℝ)
  k : Option (Matrix (Fin ntr) (Fin ntr) ℝ)
  kstar : Option (Matrix (Fin nte) (Fin ntr) ℝ)
  kstarstar : Option (Matrix (Fin nte) (Fin nte) ℝ)
  kstarstar_diag : Option (Fin nte → ℝ)
  L : Option (Matrix (Fin ntr) (Fin ntr) ℝ)
  alpha : Option (Fin ntr → ℝ)
  fstar : Option (Fin nte → ℝ)
  V : Option (Matrix (Fin nte) (Fin nte) ℝ)
  s : Option (Fin nte → ℝ)

/-- `GPnetRegressor.predict()` (Rasmussen Algorithm 2.1 variant, the one the
repo uses): resets both flags, centers the labels, builds `K`, `K*` (noise
disabled) and `K**`, aborts returning `self` with the matching flag set when
`K` or `K**` fails the eigenvalue positive-definiteness check, and otherwise
Cholesky-solves for `α`, the posterior mean `f* = K*·α + mean`, and the
posterior variance `V = diag(K**) − vᵀv` (numpy broadcasting of the diagonal
row vector), marking the model trained. -/
noncomputable def gp_predict {training test : List ℕ}
    (kern : (a b : List ℕ) → ℝ →
      Except String (Matrix (Fin a.length) (Fin b.length) ℝ))
    (chol : Matrix (Fin training.length) (Fin training.length) ℝ →
      Matrix (Fin training.length) (Fin training.length) ℝ)
    (t : Fin training.length → ℝ)
    (st : RegState training.length test.length) :
    Except String (RegState training.length test.length) :=
  let st0 := { st with k_not_posdef_flag := false, kstar_not_posdef_flag := false }
  let t_mean := (∑ i, t i) / (training.length : ℝ)
  let t_shifted := fun i => t i - t_mean
  match kern training training 1, kern test training 0, kern test test 1 with
  | Except.error e, _, _ => Except.error e
  | Except.ok _, Except.error e, _ => Except.error e
  | Except.ok _, Except.ok _, Except.error e => Except.error e
  | Except.ok k, Except.ok kstar, Except.ok kstarstar =>
    let kssdiag := fun i => kstarstar i i
    let st1 :=
      { st0 with
        t_mean := some t_mean
        t_shifted := some t_shifted
        k := some k
        kstar := some kstar
        kstarstar := some kstarstar
        kstarstar_diag := some kssdiag }
    if ¬ k.PosDef then
      Except.ok { st1 with k_not_posdef_flag := true }
    else if ¬ kstarstar.PosDef then
      Except.ok { st1 with kstar_not_posdef_flag := true }
    else
      let L := chol k
      let alpha := (L.transpose)⁻¹ *ᵥ (L⁻¹ *ᵥ t_shifted)
      let fstar := fun i => (kstar *ᵥ alpha) i + t_mean
      let v := L⁻¹ * kstar.transpose
      let V := Matrix.of fun i j => kssdiag j - (v.transpose * v) i j
      let s := fun i => Real.sqrt (V i i)
      Except.ok
        { st1 with
          L := some L
          alpha := some alpha
          fstar := some fstar
          V := some V
          s := some s
          is_trained := true }

/-- C3 (confirmed): when the train or test covariance fails the eigenvalue
positive-definiteness check, `predict` returns normally (no exception is
raised), sets the corresponding not-positive-definite flag, and leaves the
model untrained: `is_trained` keeps its prior value (`False` stays `False`)
and the posterior mean/variance attributes are exactly the prior ones —
nothing is produced. -/
theorem C3_predict_not_posdef {training test : List ℕ}
    (kern : (a b : List ℕ) → ℝ →
      Except String (Matrix (Fin a.length) (Fin b.length) ℝ))
    (chol : Matrix (Fin training.length) (Fin training.length) ℝ →
      Matrix (Fin training.length) (Fin training.length) ℝ)
    (t : Fin training.length → ℝ)
    (st : RegState training.length test.length)
    (K : Matrix (Fin training.length) (Fin training.length) ℝ)
    (Kss : Matrix (Fin test.length) (Fin test.length) ℝ)
    (Ks : Matrix (Fin test.length) (Fin training.length) ℝ)
    (hk : kern training training 1 = Except.ok K)
    (hks : kern test training 0 = Except.ok Ks)
    (hkss : kern test test 1 = Except.ok Kss)
    (hfail : ¬ K.PosDef ∨ (K.PosDef ∧ ¬ Kss.PosDef)) :
    ∃ st', gp_predict kern chol t st = Except.ok st' ∧
      st'.is_trained = st.is_trained ∧
      (st.is_trained = false → st'.is_trained = false) ∧
      st'.fstar = st.fstar ∧ st'.V = st.V ∧ st'.s = st.s ∧
      (¬ K.PosDef → st'.k_not_posdef_flag = true) ∧
      (K.PosDef ∧ ¬ Kss.PosDef → st'.kstar_not_posdef_flag = true) := by
  have hres : gp_predict kern chol t st =
      (let t_mean := (∑ i, t i) / (training.length : ℝ)
      let t_shifted := fun i => t i - t_mean
      let kssdiag := fun i => Kss i i
      let st1 :=
        { st with
          k_not_posdef_flag := false
          kstar_not_posdef_flag := false
          t_mean := some t_mean
          t_shifted := some t_shifted
          k := some K
          kstar := some Ks
          kstarstar := some Kss
          kstarstar_diag := some kssdiag }
      if ¬ K.PosDef then Except.ok { st1 with k_not_posdef_flag := true }
      else if ¬ Kss.PosDef then Except.ok { st1 with kstar_not_posdef_flag := true }
      else
        let L := chol K
        let alpha := (L.transpose)⁻¹ *ᵥ (L⁻¹ *ᵥ t_shifted)
        let fstar := fun i => (Ks *ᵥ alpha) i + t_mean
        let v := L⁻¹ * Ks.transpose
        let V := Matrix.of fun i j => kssdiag j - (v.transpose * v) i j
        let s := fun i => Real.sqrt (V i i)
        Except.ok
          { st1 with
            L := some L
            alpha := some alpha
            fstar := some fstar
            V := some V
            s := some s
            is_trained := true }) := by
    unfold gp_predict
    rw [hk, hks, hkss]
  rcases hfail with hKbad | ⟨hKgood, hKssbad⟩
  · rw [hres]
    simp only [if_pos hKbad]
    exact ⟨_, rfl, rfl, fun h => h, rfl, rfl, rfl, fun _ => rfl,
      fun hc => absurd hc.1 hKbad⟩
  · rw [hres]
    simp only [if_neg (not_not_intro hKgood), if_pos hKssbad]
    exact ⟨_, rfl, rfl, fun h => h, rfl, rfl, rfl, fun hc => absurd hKgood hc,
      fun _ => rfl⟩

/-- The zero matrix is not positive definite. -/
theorem zero_not_posDef : ¬ (0 : Matrix (Fin 1) (Fin 1) ℝ).PosDef := by
  intro h
  have hx : (fun _ => (1:ℝ) : Fin 1 → ℝ) ≠ 0 := by
    intro hc
    have := congrFun hc 0
    norm_num at this
  have := h.2 (fun _ => (1:ℝ)) hx
  simp [Matrix.mulVec] at this

/-- Witness for C3: with a kernel method returning the (non positive
definite) zero matrix on the one-train/one-test-node instance, `predict`
returns normally with the flag set and the model untrained. -/
theorem C3_predict_not_posdef_witness :
    ¬ (0 : Matrix (Fin 1) (Fin 1) ℝ).PosDef ∧
    (∃ st', @gp_predict [0] [1]
        (fun a b _ => Except.ok (0 : Matrix (Fin a.length) (Fin b.length) ℝ))
        (fun m => m) (fun _ => 0)
        ⟨false, false, false, none, none, none, none, none, none, none, none,
          none, none, none⟩ = Except.ok st' ∧
      st'.is_trained = false ∧
      (false = false → st'.is_trained = false) ∧
      st'.fstar = none ∧ st'.V = none ∧ st'.s = none ∧
      (¬ (0 : Matrix (Fin 1) (Fin 1) ℝ).PosDef → st'.k_not_posdef_flag = true) ∧
      ((0 : Matrix (Fin 1) (Fin 1) ℝ).PosDef ∧
          ¬ (0 : Matrix (Fin 1) (Fin 1) ℝ).PosDef →
        st'.kstar_not_posdef_flag = true)) :=
  ⟨zero_not_posDef,
    @C3_predict_not_posdef [0] [1]
      (fun a b _ => Except.ok (0 : Matrix (Fin a.length) (Fin b.length) ℝ))
      (fun m => m) (fun _ => 0)
      ⟨false, false, false, none, none, none, none, none, none, none, none,
        none, none, none⟩
      0 0 0 rfl rfl rfl (Or.inl zero_not_posDef)⟩

/-! ## Newton-Raphson loop (GPnetold.py, `GPnetClassifier.NRiteration`)

The body of the `while True:` loop is embedded as a step function on the
loop state `(f, phif, count, scale)`.  `phif` is a vector: numpy broadcasts
the scalar terms of `np.log(p) - 0.5·fᵀK⁻¹f - 0.5·Σ log(diag L) - (n/2)·log 2π`
against the `(n,1)` array `np.log(p)`.  The Cholesky factorisation of
`B = I + √W·K·√W` is again the external parameter `chol`. -/

/-- Loop state of `NRiteration`: latent vector `f`, previous `phif`,
iteration counter and damping scale. -/
structure NRState (n : ℕ) where
  f : Fin n → ℝ
  phif : Fin n → ℝ
  count : ℕ
  scale : ℝ

/-- Outcome of one pass of the `NRiteration` loop body: converged
(`break` with the return triple), continue looping, or raise a
non-convergence failure.  The source has no path producing `fail`. -/
inductive NROut (n : ℕ) where
  | done (f : Fin n → ℝ) (logq : ℝ) (a : Fin n → ℝ)
  | cont (st : NRState n)
  | fail (msg : String)

/-- `W = diag(exp(−f) / (1 + exp(−f))²)`. -/
noncomputable def nrW {n : ℕ} (f : Fin n → ℝ) : Matrix (Fin n) (Fin n) ℝ :=
  Matrix.diagonal (fun i => Real.exp (-(f i)) / (1 + Real.exp (-(f i))) ^ 2)

/-- `sqrtW = np.sqrt(W)` (entrywise square root of the diagonal matrix). -/
noncomputable def nrSqrtW {n : ℕ} (f : Fin n → ℝ) : Matrix (Fin n) (Fin n) ℝ :=
  Matrix.diagonal (fun i => Real.sqrt (Real.exp (-(f i)) / (1 + Real.exp (-(f i))) ^ 2))

/-- `L = cholesky(eye(n) + sqrtW·K·sqrtW)`. -/
noncomputable def nrL {n : ℕ}
    (chol : Matrix (Fin n) (Fin n) ℝ → Matrix (Fin n) (Fin n) ℝ)
    (K : Matrix (Fin n) (Fin n) ℝ) (f : Fin n → ℝ) : Matrix (Fin n) (Fin n) ℝ :=
  chol (1 + nrSqrtW f * K * nrSqrtW f)

/-- `p = 1 / (1 + exp(−f))`. -/
noncomputable def nrP {n : ℕ} (f : Fin n → ℝ) : Fin n → ℝ :=
  fun i => 1 / (1 + Real.exp (-(f i)))

/-- `b = W·f + 0.5·(targets + 1) − p`. -/
noncomputable def nrB {n : ℕ}
    (targets f : Fin n → ℝ) : Fin n → ℝ :=
  fun i => (nrW f *ᵥ f) i + (1/2) * (targets i + 1) - nrP f i

/-- `a = scale · (b − sqrtW · solve(Lᵀ, solve(L, sqrtW·K·b)))`. -/
noncomputable def nrA {n : ℕ}
    (chol : Matrix (Fin n) (Fin n) ℝ → Matrix (Fin n) (Fin n) ℝ)
    (K : Matrix (Fin n) (Fin n) ℝ) (targets : Fin n → ℝ) (scale : ℝ)
    (f : Fin n → ℝ) : Fin n → ℝ :=
  fun i => scale * ((nrB targets f) i -
    (nrSqrtW f *ᵥ ((nrL chol K f).transpose⁻¹ *ᵥ ((nrL chol K f)⁻¹ *ᵥ
      (nrSqrtW f *ᵥ (K *ᵥ nrB targets f))))) i)

/-- The updated latent vector `f = K·a`. -/
noncomputable def nrF {n : ℕ}
    (chol : Matrix (Fin n) (Fin n) ℝ → Matrix (Fin n) (Fin n) ℝ)
    (K : Matrix (Fin n) (Fin n) ℝ) (targets : Fin n → ℝ) (scale : ℝ)
    (f : Fin n → ℝ) : Fin n → ℝ :=
  K *ᵥ nrA chol K targets scale f

/-- The new `phif` vector:
`log(p) − 0.5·fᵀK⁻¹f − 0.5·Σ log(diag L) − (n/2)·log(2π)` with the updated
`f` and the pre-update `p` and `L`, broadcast over the entries of `log(p)`. -/
noncomputable def nrPhif {n : ℕ}
    (chol : Matrix (Fin n) (Fin n) ℝ → Matrix (Fin n) (Fin n) ℝ)
    (K : Matrix (Fin n) (Fin n) ℝ) (targets : Fin n → ℝ) (scale : ℝ)
    (f : Fin n → ℝ) : Fin n → ℝ :=
  fun i => Real.log (nrP f i)
    - (1/2) * (nrF chol K targets scale f ⬝ᵥ (K⁻¹ *ᵥ nrF chol K targets scale f))
    - (1/2) * (∑ j, Real.log (nrL chol K f j j))
    - (n : ℝ) / 2 * Real.log (2 * Real.pi)

/-- The approximate log marginal likelihood returned on convergence:
`logq = −0.5·aᵀf − Σ log(1 + log(1 + exp(−s))) − Σ log(diag L)` with
`s = −targets ⊙ f`. -/
noncomputable def nrLogq {n : ℕ}
    (chol : Matrix (Fin n) (Fin n) ℝ → Matrix (Fin n) (Fin n) ℝ)
    (K : Matrix (Fin n) (Fin n) ℝ) (targets : Fin n → ℝ) (scale : ℝ)
    (f : Fin n → ℝ) : ℝ :=
  let a := nrA chol K targets scale f
  let fnew := nrF chol K targets scale f
  let L := nrL chol K f;
  -(1/2) * (a ⬝ᵥ fnew)
    - (∑ i, Real.log (1 + Real.log (1 + Real.exp (-(-(targets i) * fnew i)))))
    - (∑ i, Real.log (L i i))

/-- One pass of the `while True:` body of `NRiteration`:
increment the counter, run the Newton step, `break` when
`Σ (oldphif − phif)² < tol`, otherwise when the counter exceeds 100 reset it
to 0 and halve the damping `scale`, and loop. -/
noncomputable def NRstep {n : ℕ}
    (chol : Matrix (Fin n) (Fin n) ℝ → Matrix (Fin n) (Fin n) ℝ)
    (K : Matrix (Fin n) (Fin n) ℝ) (targets : Fin n → ℝ) (tol : ℝ)
    (st : NRState n) : NROut n :=
  let c := st.count + 1
  let fnew := nrF chol K targets st.scale st.f
  let phifNew := nrPhif chol K targets st.scale st.f
  if (∑ i, (st.phif i - phifNew i) ^ 2) < tol then
    NROut.done fnew (nrLogq chol K targets st.scale st.f)
      (nrA chol K targets st.scale st.f)
  else if c > 100 then
    NROut.cont ⟨fnew, phifNew, 0, st.scale / 2⟩
  else
    NROut.cont ⟨fnew, phifNew, c, st.scale⟩

/-- C6 (confirmed): the `NRiteration` loop body never raises a
non-convergence failure, and whenever the iteration count exceeds 100 with
the stopping criterion unmet it continues looping with the counter reset to
0 and the damping scale halved. -/
theorem C6_NR_damping_retry {n : ℕ}
    (chol : Matrix (Fin n) (Fin n) ℝ → Matrix (Fin n) (Fin n) ℝ)
    (K : Matrix (Fin n) (Fin n) ℝ) (targets : Fin n → ℝ) (tol : ℝ) :
    (∀ (st : NRState n) (msg : String), NRstep chol K targets tol st ≠ NROut.fail msg)
    ∧ (∀ st : NRState n, 100 ≤ st.count →
        ¬ (∑ i, (st.phif i - nrPhif chol K targets st.scale st.f i) ^ 2) < tol →
        NRstep chol K targets tol st =
          NROut.cont ⟨nrF chol K targets st.scale st.f,
            nrPhif chol K targets st.scale st.f, 0, st.scale / 2⟩) := by
  constructor
  · intro st msg h
    unfold NRstep at h
    by_cases hc : (∑ i, (st.phif i - nrPhif chol K targets st.scale st.f i) ^ 2) < tol
    · rw [if_pos hc] at h
      exact NROut.noConfusion h
    · rw [if_neg hc] at h
      by_cases hcnt : st.count + 1 > 100
      · rw [if_pos hcnt] at h
        exact NROut.noConfusion h
      · rw [if_neg hcnt] at h
        exact NROut.noConfusion h
  · intro st hcount hcrit
    unfold NRstep
    rw [if_neg hcrit, if_pos (by omega : st.count + 1 > 100)]

/-- Witness for C6: on the 1-node instance with `tol = 0` the stopping
criterion (a sum of squares strictly below 0) fails, the counter 100 exceeds
the budget, and the step continues with the counter reset and the scale
halved. -/
theorem C6_NR_damping_retry_witness :
    (100 ≤ (100:ℕ)) ∧
    ¬ (∑ i : Fin 1, ((fun _ => (0:ℝ)) i - nrPhif (n := 1) (fun _ => 1) 1 (fun _ => 0) 1
        (fun _ => 0) i) ^ 2) < (0:ℝ) ∧
    NRstep (n := 1) (fun _ => 1) 1 (fun _ => 0) 0 ⟨fun _ => 0, fun _ => 0, 100, 1⟩ =
      NROut.cont ⟨nrF (n := 1) (fun _ => 1) 1 (fun _ => 0) 1 (fun _ => 0),
        nrPhif (n := 1) (fun _ => 1) 1 (fun _ => 0) 1 (fun _ => 0), 0, 1 / 2⟩ := by
  have hcrit : ¬ (∑ i : Fin 1, ((fun _ => (0:ℝ)) i - nrPhif (n := 1) (fun _ => 1) 1 (fun _ => 0) 1
      (fun _ => 0) i) ^ 2) < (0:ℝ) :=
    not_lt.mpr (Finset.sum_nonneg fun i _ => sq_nonneg _)
  exact ⟨le_refl 100, hcrit,
    (C6_NR_damping_retry (n := 1) (fun _ => 1) 1 (fun _ => 0) 0).2
      ⟨fun _ => 0, fun _ => 0, 100, 1⟩ (le_refl 100) hcrit⟩

/-! ## Node partitioner (`random_assign_nodes`, GPnetold.py and benchtest.py)

Python's global `random` module is modelled as a pseudo-random-generator
state of an arbitrary type `ρ`, with `seedFn` for `random.seed(seed)` and
`sampleFn` for `random.sample(population, k)` (returning the drawn list and
the advanced generator state).  The method first validates the sizes — the
`ValueError` raise is `Except.error` — then reseeds the generator from
`self.seed`, draws and sorts the training nodes, draws the test nodes from
the set difference and sorts them, and sorts the remaining nodes. -/

/-- The three partition attributes of a model. -/
structure Partition where
  training_nodes : List ℕ
  test_nodes : List ℕ
  other_nodes : List ℕ
deriving DecidableEq

/-- `GPnet.random_assign_nodes` / `GPnetRegressor.random_assign_nodes`. -/
def random_assign_nodes {ρ : Type} (seedFn : ℕ → ρ)
    (sampleFn : ρ → List ℕ → ℕ → List ℕ × ρ)
    (g : ρ) (seed : ℕ) (nodes : List ℕ) (N n : ℕ) : Except String Partition :=
  if N + n > nodes.length then
    Except.error "tot. nodes cannot be less than training nodes + test nodes"
  else
    let g0 := seedFn seed
    let training := List.insertionSort (· ≤ ·) (sampleFn g0 nodes N).1
    let g1 := (sampleFn g0 nodes N).2
    let rest := nodes.filter (fun x => decide (x ∉ training))
    let test := List.insertionSort (· ≤ ·) (sampleFn g1 rest n).1
    let other := List.insertionSort (· ≤ ·)
      (nodes.filter (fun x => decide (x ∉ training ∧ x ∉ test)))
    Except.ok ⟨training, test, other⟩

/-- Python object semantics of a call to `random_assign_nodes`: when the
`ValueError` is raised the exception propagates and the object's partition
attributes keep their prior values; on success they are replaced wholesale. -/
def assign_run {ρ : Type} (seedFn : ℕ → ρ)
    (sampleFn : ρ → List ℕ → ℕ → List ℕ × ρ)
    (g : ρ) (seed : ℕ) (nodes : List ℕ) (N n : ℕ) (st : Partition) : Partition :=
  match random_assign_nodes seedFn sampleFn g seed nodes N n with
  | Except.ok p => p
  | Except.error _ => st

/-- C7 (confirmed): `random_assign_nodes` fails with the invalid-configuration
`ValueError` exactly when `n_train + n_test` exceeds the total node count;
the check comes before any sampling (the outcome is the same for every
sampler and generator state), and on failure no partition field is touched. -/
theorem C7_assign_validation {ρ : Type} (seedFn : ℕ → ρ)
    (sampleFn : ρ → List ℕ → ℕ → List ℕ × ρ) (g : ρ)
    (seed : ℕ) (nodes : List ℕ) (N n : ℕ) :
    (random_assign_nodes seedFn sampleFn g seed nodes N n =
        Except.error "tot. nodes cannot be less than training nodes + test nodes" ↔
      nodes.length < N + n)
    ∧ (nodes.length < N + n →
        ∀ st : Partition, assign_run seedFn sampleFn g seed nodes N n st = st) := by
  constructor
  · constructor
    · intro herr
      by_contra hle
      unfold random_assign_nodes at herr
      rw [if_neg (by omega : ¬ N + n > nodes.length)] at herr
      exact Except.noConfusion herr
    · intro hlt
      unfold random_assign_nodes
      rw [if_pos (by omega : N + n > nodes.length)]
  · intro hlt st
    unfold assign_run random_assign_nodes
    rw [if_pos (by omega : N + n > nodes.length)]

/-- Witness for C7: requesting a 1+1 split of a single-node graph fails and
leaves the partition `⟨[5], [6], [7]⟩` untouched. -/
theorem C7_assign_validation_witness :
    (([0] : List ℕ).length < 1 + 1) ∧
    assign_run (fun _ => ()) (fun g l k => (l.take k, g)) () 0 [0] 1 1
      ⟨[5], [6], [7]⟩ = ⟨[5], [6], [7]⟩ :=
  ⟨by decide,
    (C7_assign_validation (fun _ => ()) (fun g l k => (l.take k, g)) () 0 [0] 1 1).2
      (by decide) ⟨[5], [6], [7]⟩⟩

/-- C8 (confirmed): under the `random.sample` contract — the drawn list is
taken from the population — every successful `random_assign_nodes` run
produces three sorted sequences that are pairwise disjoint and whose union
is exactly the graph's node set. -/
theorem C8_partition_invariants {ρ : Type} (seedFn : ℕ → ρ)
    (sampleFn : ρ → List ℕ → ℕ → List ℕ × ρ) (g : ρ)
    (seed : ℕ) (nodes : List ℕ) (N n : ℕ) (p : Partition)
    (hsub : ∀ (h : ρ) (l : List ℕ) (k : ℕ), ∀ x ∈ (sampleFn h l k).1, x ∈ l)
    (hok : random_assign_nodes seedFn sampleFn g seed nodes N n = Except.ok p) :
    p.training_nodes.Sorted (· ≤ ·) ∧ p.test_nodes.Sorted (· ≤ ·) ∧
    p.other_nodes.Sorted (· ≤ ·) ∧
    (∀ x, ¬ (x ∈ p.training_nodes ∧ x ∈ p.test_nodes)) ∧
    (∀ x, ¬ (x ∈ p.training_nodes ∧ x ∈ p.other_nodes)) ∧
    (∀ x, ¬ (x ∈ p.test_nodes ∧ x ∈ p.other_nodes)) ∧
    (∀ x, (x ∈ p.training_nodes ∨ x ∈ p.test_nodes ∨ x ∈ p.other_nodes) ↔
      x ∈ nodes) := by
  unfold random_assign_nodes at hok
  by_cases hlen : N + n > nodes.length
  · rw [if_pos hlen] at hok
    exact absurd hok (fun hc => Except.noConfusion hc)
  · rw [if_neg hlen] at hok
    have hp := (Except.ok.inj hok).symm
    set g0 := seedFn seed with hg0
    set training := List.insertionSort (· ≤ ·) (sampleFn g0 nodes N).1 with htr
    set rest := nodes.filter (fun x => decide (x ∉ training)) with hrest
    set test := List.insertionSort (· ≤ ·)
      (sampleFn (sampleFn g0 nodes N).2 rest n).1 with hte
    set other := List.insertionSort (· ≤ ·)
      (nodes.filter (fun x => decide (x ∉ training ∧ x ∉ test))) with hot
    have hptr : p.training_nodes = training := by rw [hp]
    have hpte : p.test_nodes = test := by rw [hp]
    have hpot : p.other_nodes = other := by rw [hp]
    have htrn : ∀ x, x ∈ training → x ∈ nodes := by
      intro x hx
      exact hsub g0 nodes N x ((List.mem_insertionSort _).mp hx)
    have hten : ∀ x, x ∈ test → x ∈ rest := by
      intro x hx
      exact hsub _ rest n x ((List.mem_insertionSort _).mp hx)
    have hrest_not : ∀ x, x ∈ rest → x ∉ training := by
      intro x hx
      have := (List.mem_filter.mp hx).2
      simpa using this
    have hother : ∀ x, x ∈ other ↔ (x ∈ nodes ∧ x ∉ training ∧ x ∉ test) := by
      intro x
      rw [hot, List.mem_insertionSort, List.mem_filter]
      simp
    refine ⟨?_, ?_, ?_, ?_, ?_, ?_, ?_⟩
    · rw [hptr, htr]; exact List.sorted_insertionSort _ _
    · rw [hpte, hte]; exact List.sorted_insertionSort _ _
    · rw [hpot, hot]; exact List.sorted_insertionSort _ _
    · rintro x ⟨hxt, hxe⟩
      rw [hptr] at hxt
      rw [hpte] at hxe
      exact hrest_not x (hten x hxe) hxt
    · rintro x ⟨hxt, hxo⟩
      rw [hptr] at hxt
      rw [hpot] at hxo
      exact ((hother x).mp hxo).2.1 hxt
    · rintro x ⟨hxe, hxo⟩
      rw [hpte] at hxe
      rw [hpot] at hxo
      exact ((hother x).mp hxo).2.2 hxe
    · intro x
      rw [hptr, hpte, hpot]
      constructor
      · rintro (hx | hx | hx)
        · exact htrn x hx
        · exact (List.mem_filter.mp (hten x hx)).1
        · exact ((hother x).mp hx).1
      · intro hx
        by_cases hxt : x ∈ training
        · exact Or.inl hxt
        · by_cases hxe : x ∈ test
          · exact Or.inr (Or.inl hxe)
          · exact Or.inr (Or.inr ((hother x).mpr ⟨hx, hxt, hxe⟩))

/-- Witness for C8: with the take-a-prefix sampler on the 3-node graph
`[0, 1, 2]` and sizes 1/1, the run succeeds with partition
`([0], [1], [2])` and all invariants evaluate. -/
theorem C8_partition_invariants_witness :
    random_assign_nodes (fun _ => ()) (fun h l k => (l.take k, h)) () 0 [0, 1, 2] 1 1 =
      Except.ok ⟨[0], [1], [2]⟩ ∧
    (([0] : List ℕ).Sorted (· ≤ ·) ∧ ([1] : List ℕ).Sorted (· ≤ ·) ∧
      ([2] : List ℕ).Sorted (· ≤ ·) ∧
      (∀ x, ¬ (x ∈ ([0] : List ℕ) ∧ x ∈ ([1] : List ℕ))) ∧
      (∀ x, ¬ (x ∈ ([0] : List ℕ) ∧ x ∈ ([2] : List ℕ))) ∧
      (∀ x, ¬ (x ∈ ([1] : List ℕ) ∧ x ∈ ([2] : List ℕ))) ∧
      (∀ x, (x ∈ ([0] : List ℕ) ∨ x ∈ ([1] : List ℕ) ∨ x ∈ ([2] : List ℕ)) ↔
        x ∈ ([0, 1, 2] : List ℕ))) :=
  ⟨rfl,
    C8_partition_invariants (fun _ => ()) (fun h l k => (l.take k, h)) () 0
      [0, 1, 2] 1 1 ⟨[0], [1], [2]⟩
      (fun h l k x hx => List.take_subset k l hx) rfl⟩

/-- C9 (confirmed): `random_assign_nodes` reseeds the generator from
`self.seed` before sampling, so two runs with the same seed, node list and
sizes return identical partitions regardless of the ambient generator
state. -/
theorem C9_assign_deterministic {ρ : Type} (seedFn : ℕ → ρ)
    (sampleFn : ρ → List ℕ → ℕ → List ℕ × ρ) (g g' : ρ)
    (seed : ℕ) (nodes : List ℕ) (N n : ℕ) :
    random_assign_nodes seedFn sampleFn g seed nodes N n =
      random_assign_nodes seedFn sampleFn g' seed nodes N n := rfl

/-! ## Classifier prediction (GPnetold.py, `GPnetClassifier.predict`)

The tail of `predict()` after the Newton-Raphson mode `f` has been obtained:
steps 2-6 of Rasmussen Algorithm 3.2 followed by the fixed 5-term
error-function approximation of the sigmoid-Gaussian integral.
`scipy.special.erf` is the external parameter `erf`; the NR outputs enter as
the parameter `f`. -/

/-- The fixed `LAMBDAS` constants of the sigmoid approximation. -/
noncomputable def LAMBDAS : Fin 5 → ℝ := ![0.41, 0.4, 0.37, 0.44, 0.39]

/-- The fixed `COEFS` constants of the sigmoid approximation. -/
noncomputable def COEFS : Fin 5 → ℝ :=
  ![-1854.8214151, 3516.89893646, 221.29346712, 128.12323805, -2010.49422654]

/-- `GPnetClassifier.predict()` from the computation of `W` onwards,
returning `(fstar, V, predicted_probs)`:
`fstar = kstarᵀ·((targets+1)/2 − p)`, `v = L⁻¹·(√W·kstar)`,
`V = (diag(K**) − vᵀv).diagonal()`, `π* = Σ COEFS·integrals + 0.5·Σ COEFS`,
`predicted_probs = vstack((1 − π*, π*)).T`. -/
noncomputable def classifier_predict {n m : ℕ} (erf : ℝ → ℝ)
    (chol : Matrix (Fin n) (Fin n) ℝ → Matrix (Fin n) (Fin n) ℝ)
    (K : Matrix (Fin n) (Fin n) ℝ) (kstar : Matrix (Fin n) (Fin m) ℝ)
    (kstarstar_diag : Fin m → ℝ) (targets : Fin n → ℝ) (f : Fin n → ℝ) :
    (Fin m → ℝ) × (Fin m → ℝ) × (Fin m → Fin 2 → ℝ) :=
  let s := fun i => if f i < 0 then f i else 0
  let W := Matrix.diagonal (fun i =>
    Real.exp (2 * s i - f i) / (Real.exp (s i) + Real.exp (s i - f i)) ^ 2)
  let sqrtW := Matrix.diagonal (fun i =>
    Real.sqrt (Real.exp (2 * s i - f i) / (Real.exp (s i) + Real.exp (s i - f i)) ^ 2))
  let L := chol (1 + sqrtW * K * sqrtW)
  let p := fun i => Real.exp (s i) / (Real.exp (s i) + Real.exp (s i - f i))
  let fstar := fun j => (kstar.transpose *ᵥ fun i => (targets i + 1) * (1/2) - p i) j
  let v := L⁻¹ * (sqrtW * kstar)
  let V := fun j => kstarstar_diag j - (v.transpose * v) j j
  let alphaInt := fun j => 1 / (2 * V j)
  let gamma := fun (i : Fin 5) (j : Fin m) => LAMBDAS i * fstar j
  let integrals := fun (i : Fin 5) (j : Fin m) =>
    Real.sqrt (Real.pi / alphaInt j) *
      erf (gamma i j * Real.sqrt (alphaInt j / (alphaInt j + LAMBDAS i ^ 2))) /
      (2 * Real.sqrt (V j * 2 * Real.pi))
  let pi_star := fun j =>
    (∑ i : Fin 5, COEFS i * integrals i j) + (1/2) * (∑ i : Fin 5, COEFS i)
  let predicted_probs := fun (j : Fin m) (c : Fin 2) =>
    if c = 0 then 1 - pi_star j else pi_star j
  (fstar, fun j => V j, predicted_probs)

/-- C10 (confirmed): after a successful classifier `predict()`, each row `j`
of `predicted_probs` is the pair `(1 − π*ⱼ, π*ⱼ)`, so the two class
probabilities of every test node sum exactly to 1. -/
theorem C10_predicted_probs_rows {n m : ℕ} (erf : ℝ → ℝ)
    (chol : Matrix (Fin n) (Fin n) ℝ → Matrix (Fin n) (Fin n) ℝ)
    (K : Matrix (Fin n) (Fin n) ℝ) (kstar : Matrix (Fin n) (Fin m) ℝ)
    (kstarstar_diag : Fin m → ℝ) (targets : Fin n → ℝ) (f : Fin n → ℝ)
    (j : Fin m) :
    (classifier_predict erf chol K kstar kstarstar_diag targets f).2.2 j 0 =
      1 - (classifier_predict erf chol K kstar kstarstar_diag targets f).2.2 j 1 ∧
    (classifier_predict erf chol K kstar kstarstar_diag targets f).2.2 j 0 +
      (classifier_predict erf chol K kstar kstarstar_diag targets f).2.2 j 1 = 1 := by
  unfold classifier_predict
  constructor
  · simp
  · simp

end GPnet
